import Mathlib

/-!
Verification development for the aerodata-orm data-access layer.

The Python source is shallowly embedded:
* `FilterOperator.values` — the operator vocabulary of `query/filters.py`;
* `QueryBuilder` — the accumulated query intent of `query/builder.py`,
  with its chainable methods as pure state transformers and its terminal
  methods parameterized by a backend function;
* `Record.save` / `Record.delete` — the lifecycle helpers of
  `models/base.py`, returning the list of backend calls they issue;
* `Aircraft.to_dict` / `Aircraft.from_dict` — the pydantic serialization
  of `models/base.py` instantiated at a representative model class.

Python keyword arguments are ordered (insertion order), so `where(**kwargs)`
is embedded as a fold over an ordered list of key/value pairs.  `datetime.now()`
is embedded as an explicit clock value passed to `save`.  Numeric field
values are modeled exactly (`Int`): none of the embedded operations perform
arithmetic on them, only storage, comparison and equality.
-/

/-- A dynamically-typed Python value as it occurs in filter conditions:
a scalar (int, string, bool, None) or a sequence of scalars. -/
inductive Prim where
  | intP : Int → Prim
  | strP : String → Prim
  | boolP : Bool → Prim
  | noneP : Prim
deriving DecidableEq, Repr

/-- A filter value: a primitive scalar or a sequence (Python list/tuple). -/
inductive Value where
  | prim : Prim → Value
  | seq : List Prim → Value
deriving DecidableEq, Repr

/-- `Value.isSequence v` holds exactly when `v` is a Python sequence
(the shape `in`/`not_in` are documented to require). -/
def Value.isSequence : Value → Bool
  | Value.seq _ => true
  | Value.prim _ => false

/-- The closed operator vocabulary of `FilterOperator` in `query/filters.py`. -/
def FilterOperator.values : List String :=
  ["eq", "ne", "gt", "gte", "lt", "lte", "contains", "in", "not_in",
   "is_null", "is_not_null"]

/-- One filter condition dict `{"field": ..., "operator": ..., "value": ...}`
as appended by `QueryBuilder.where`. -/
structure FilterCondition where
  field : String
  operator : String
  value : Value
deriving DecidableEq, Repr

/-- `occursAt s sub i`: `sub` occurs in `s` starting at character index `i`. -/
def occursAt (s sub : List Char) (i : Nat) : Prop :=
  sub.isPrefixOf (s.drop i) = true

instance (s sub : List Char) (i : Nat) : Decidable (occursAt s sub i) :=
  inferInstanceAs (Decidable (sub.isPrefixOf (s.drop i) = true))

/-- Python's `sub in s` substring test. -/
def strContains (s sub : String) : Bool :=
  (List.range (s.toList.length + 1)).any
    (fun i => sub.toList.isPrefixOf (s.toList.drop i))

/-- Python's `s.rsplit(sub, 1)` restricted to the found case: splits `s` at
the LAST occurrence of `sub`; `none` when `sub` does not occur in `s`. -/
def rsplitLast (s sub : String) : Option (String × String) :=
  if strContains s sub then
    let i := Nat.findGreatest (occursAt s.toList sub.toList) s.toList.length
    some (String.mk (s.toList.take i),
          String.mk (s.toList.drop (i + sub.toList.length)))
  else none

/-- The query intent accumulated by `QueryBuilder.__init__` in
`query/builder.py`: model class, filters, relations, order-by fields,
optional limit and optional offset. -/
structure QueryBuilder where
  model_class : String
  filters : List FilterCondition
  relations : List String
  order_by_fields : List String
  limit_value : Option Int
  offset_value : Option Int
deriving DecidableEq, Repr

/-- `QueryBuilder.__init__`: empty intent bound to a model class. -/
def QueryBuilder.init (model_class : String) : QueryBuilder :=
  ⟨model_class, [], [], [], none, none⟩

/-- One iteration of the loop in `QueryBuilder.where`: if `"__" in key`,
split on the last `"__"` into field and operator and append the condition;
otherwise append `{key, "eq", value}`. -/
def QueryBuilder.whereOne (qb : QueryBuilder) (key : String) (value : Value) :
    QueryBuilder :=
  match rsplitLast key "__" with
  | some (f, op) =>
      { qb with filters := qb.filters ++ [⟨f, op, value⟩] }
  | none =>
      { qb with filters := qb.filters ++ [⟨key, "eq", value⟩] }

/-- The condition one keyword argument of `QueryBuilder.where` turns into. -/
def parseCondition (key : String) (value : Value) : FilterCondition :=
  match rsplitLast key "__" with
  | some (f, op) => ⟨f, op, value⟩
  | none => ⟨key, "eq", value⟩

/-- `QueryBuilder.where(**kwargs)`: the loop over the (ordered) keyword
arguments, each appending one condition via `whereOne`. -/
def QueryBuilder.whereAll (qb : QueryBuilder) (kwargs : List (String × Value)) :
    QueryBuilder :=
  kwargs.foldl (fun b kv => b.whereOne kv.1 kv.2) qb

/-- `QueryBuilder.with_relations`: extends the relation list. -/
def QueryBuilder.with_relations (qb : QueryBuilder) (rels : List String) :
    QueryBuilder :=
  { qb with relations := qb.relations ++ rels }

/-- `QueryBuilder.order_by`: extends the order-by field list. -/
def QueryBuilder.order_by (qb : QueryBuilder) (fields : List String) :
    QueryBuilder :=
  { qb with order_by_fields := qb.order_by_fields ++ fields }

/-- `QueryBuilder.limit`: overwrites the stored limit with the argument. -/
def QueryBuilder.limit (qb : QueryBuilder) (n : Int) : QueryBuilder :=
  { qb with limit_value := some n }

/-- `QueryBuilder.offset`: overwrites the stored offset with the argument. -/
def QueryBuilder.offset (qb : QueryBuilder) (n : Int) : QueryBuilder :=
  { qb with offset_value := some n }

/-- The argument tuple `QueryBuilder.first`/`QueryBuilder.all` pass to
`backend.execute_query`. -/
structure ExecIntent where
  model_class : String
  filters : List FilterCondition
  relations : List String
  order_by : List String
  limit : Option Int
  offset : Option Int
deriving DecidableEq, Repr

/-- The execute-query intent a builder hands to the backend. -/
def QueryBuilder.execIntent (qb : QueryBuilder) : ExecIntent :=
  ⟨qb.model_class, qb.filters, qb.relations, qb.order_by_fields,
   qb.limit_value, qb.offset_value⟩

/-- `QueryBuilder.first`: sets `self._limit_value = 1`, executes via the
backend and returns the head of the result list (or `none`), together with
the mutated builder. -/
def QueryBuilder.first {α : Type} (qb : QueryBuilder)
    (backend : ExecIntent → List α) : Option α × QueryBuilder :=
  let qb' := { qb with limit_value := some 1 }
  let results := backend qb'.execIntent
  (results.head?, qb')

/-- `QueryBuilder.all`: executes via the backend with the current intent. -/
def QueryBuilder.all {α : Type} (qb : QueryBuilder)
    (backend : ExecIntent → List α) : List α :=
  backend qb.execIntent

/-- The argument pair `QueryBuilder.count` passes to `backend.count_query`:
model class and filters only. -/
structure CountIntent where
  model_class : String
  filters : List FilterCondition
deriving DecidableEq, Repr

/-- The count-query intent a builder hands to the backend. -/
def QueryBuilder.countIntent (qb : QueryBuilder) : CountIntent :=
  ⟨qb.model_class, qb.filters⟩

/-- `QueryBuilder.count`: delegates to `backend.count_query` with model
class and filters only. -/
def QueryBuilder.count (qb : QueryBuilder) (backend : CountIntent → Int) :
    Int :=
  backend qb.countIntent

/-- `QueryBuilder.exists`: `self.count() > 0`. -/
def QueryBuilder.existsQ (qb : QueryBuilder) (backend : CountIntent → Int) :
    Bool :=
  qb.count backend > 0

/-- A record as seen by the lifecycle helpers of `models/base.py`: the three
managed fields `id`, `created_at`, `updated_at`, the model class of the
instance (`self.__class__`), and the domain fields as an opaque payload. -/
structure LifecycleRecord where
  model_class : String
  id : Option Int
  created_at : Option Nat
  updated_at : Option Nat
  payload : List (String × Value)
deriving DecidableEq, Repr

/-- One call issued to the bound backend by a lifecycle helper. -/
inductive BackendCall where
  | insert (r : LifecycleRecord)
  | update (r : LifecycleRecord)
  | deleteCall (model_class : String) (id : Int)
deriving DecidableEq, Repr

/-- `BaseModel.save`: if `self.id is None`, set `created_at` and
`updated_at` to the current time and call `backend.insert(self)`; otherwise
set only `updated_at` and call `backend.update(self)`.  Returns the record
after mutation and the list of backend calls issued, in order. -/
def LifecycleRecord.save (r : LifecycleRecord) (now : Nat) :
    LifecycleRecord × List BackendCall :=
  match r.id with
  | none =>
      let r' := { r with created_at := some now, updated_at := some now }
      (r', [BackendCall.insert r'])
  | some _ =>
      let r' := { r with updated_at := some now }
      (r', [BackendCall.update r'])

/-- `BaseModel.delete`: if `self.id is not None`, call
`backend.delete(self.__class__, self.id)`; otherwise do nothing.  Returns
the list of backend calls issued. -/
def LifecycleRecord.delete (r : LifecycleRecord) : List BackendCall :=
  match r.id with
  | none => []
  | some i => [BackendCall.deleteCall r.model_class i]

/-- One builder operation, for reasoning about arbitrary call sequences.
Each constructor carries the arguments of the corresponding
`QueryBuilder` method; `firstOp` stands for a `first()` call (whose effect
on the builder state is `_limit_value = 1`, independent of the backend). -/
inductive BuilderOp where
  | whereOp (kwargs : List (String × Value))
  | withRelationsOp (rels : List String)
  | orderByOp (fields : List String)
  | limitOp (n : Int)
  | offsetOp (n : Int)
  | firstOp
deriving Repr

/-- The builder-state effect of one operation. -/
def QueryBuilder.applyOp (qb : QueryBuilder) : BuilderOp → QueryBuilder
  | BuilderOp.whereOp kwargs => qb.whereAll kwargs
  | BuilderOp.withRelationsOp rels => qb.with_relations rels
  | BuilderOp.orderByOp fields => qb.order_by fields
  | BuilderOp.limitOp n => qb.limit n
  | BuilderOp.offsetOp n => qb.offset n
  | BuilderOp.firstOp => { qb with limit_value := some 1 }

/-- The builder state after a sequence of operations. -/
def QueryBuilder.applyOps (qb : QueryBuilder) (ops : List BuilderOp) :
    QueryBuilder :=
  ops.foldl QueryBuilder.applyOp qb

/-- The pagination fields of a builder are each unset or non-negative. -/
def QueryBuilder.pagNonneg (qb : QueryBuilder) : Prop :=
  (∀ n, qb.limit_value = some n → 0 ≤ n) ∧
  (∀ n, qb.offset_value = some n → 0 ≤ n)

/-- An operation passes only non-negative pagination arguments. -/
def BuilderOp.argNonneg : BuilderOp → Prop
  | BuilderOp.limitOp n => 0 ≤ n
  | BuilderOp.offsetOp n => 0 ≤ n
  | _ => True

instance (op : BuilderOp) : Decidable op.argNonneg := by
  cases op <;> simp [BuilderOp.argNonneg] <;> infer_instance

/-- A value in a `model_dump` dictionary: an int, a string, a datetime
(instants modeled as `Nat`), or Python `None`. -/
inductive DVal where
  | intD : Int → DVal
  | strD : String → DVal
  | timeD : Nat → DVal
  | noneD : DVal
deriving DecidableEq, Repr

/-- A `model_dump` dictionary of a model without nested models. -/
abbrev Dict := List (String × DVal)

/-- Read a scalar entry of a dump dictionary. -/
def Dict.get (d : Dict) (k : String) : Option DVal :=
  List.lookup k d

/-- Read a required int field: present with an int value, else a
validation failure. -/
def Dict.readInt (d : Dict) (k : String) : Option Int :=
  match d.get k with
  | some (DVal.intD i) => some i
  | _ => none

/-- Read a required string field. -/
def Dict.readStr (d : Dict) (k : String) : Option String :=
  match d.get k with
  | some (DVal.strD s) => some s
  | _ => none

/-- Read an `Optional[int]` field: missing or `None` yields Python `None`;
a non-int non-`None` value is a validation failure. -/
def Dict.readOptInt (d : Dict) (k : String) : Option (Option Int) :=
  match d.get k with
  | none => some none
  | some DVal.noneD => some none
  | some (DVal.intD i) => some (some i)
  | some _ => none

/-- Read an `Optional[str]` field. -/
def Dict.readOptStr (d : Dict) (k : String) : Option (Option String) :=
  match d.get k with
  | none => some none
  | some DVal.noneD => some none
  | some (DVal.strD s) => some (some s)
  | some _ => none

/-- Read an `Optional[datetime]` field. -/
def Dict.readOptTime (d : Dict) (k : String) : Option (Option Nat) :=
  match d.get k with
  | none => some none
  | some DVal.noneD => some none
  | some (DVal.timeD t) => some (some t)
  | some _ => none

/-- The `Engine` model of `models/engine.py`, restricted to the base
fields and a representative subset of its domain fields (one required
string, one required constrained number, one optional constrained number);
float-valued fields carry exact numbers since serialization never computes
with them. -/
structure Engine where
  id : Option Int
  created_at : Option Nat
  updated_at : Option Nat
  model : String
  manufacturer : String
  thrust : Int
  max_rpm : Option Int
deriving DecidableEq, Repr

/-- `BaseModel.to_dict` (i.e. `model_dump`) at `Engine`, with
`exclude_none=False`: every field appears under its name. -/
def Engine.to_dict (e : Engine) : Dict :=
  [("id", match e.id with | some i => DVal.intD i | none => DVal.noneD),
   ("created_at", match e.created_at with
      | some t => DVal.timeD t | none => DVal.noneD),
   ("updated_at", match e.updated_at with
      | some t => DVal.timeD t | none => DVal.noneD),
   ("model", DVal.strD e.model),
   ("manufacturer", DVal.strD e.manufacturer),
   ("thrust", DVal.intD e.thrust),
   ("max_rpm", match e.max_rpm with
      | some m => DVal.intD m | none => DVal.noneD)]

/-- `BaseModel.from_dict` (i.e. `cls(**data)`) at `Engine`: reads each
declared field by name and runs pydantic validation (`thrust` has `gt=0`,
`max_rpm` has `gt=0`); `none` is a `ValidationError`. -/
def Engine.from_dict (d : Dict) : Option Engine := do
  let id ← d.readOptInt "id"
  let created_at ← d.readOptTime "created_at"
  let updated_at ← d.readOptTime "updated_at"
  let model ← d.readStr "model"
  let manufacturer ← d.readStr "manufacturer"
  let thrust ← d.readInt "thrust"
  guard (0 < thrust)
  let max_rpm ← d.readOptInt "max_rpm"
  guard ((match max_rpm with | some m => decide (0 < m) | none => true) = true)
  pure ⟨id, created_at, updated_at, model, manufacturer, thrust, max_rpm⟩

/-- The field constraints pydantic enforces on any constructed `Engine`
instance (`validate_assignment=True` keeps them invariant). -/
def Engine.validB (e : Engine) : Bool :=
  decide (0 < e.thrust) &&
  (match e.max_rpm with | some m => decide (0 < m) | none => true)

/-- The allowed values of `Aircraft.engine_type` after the
`validate_engine_type` field validator. -/
def validEngineTypes : List String :=
  ["jet", "turboprop", "piston", "turbofan", "turbojet"]

/-- Python's `str.lower()` (characterwise lowercasing). -/
def pyLower (s : String) : String := String.mk (s.toList.map Char.toLower)

/-- A value in an `Aircraft` dump dictionary: a scalar, or the list of
nested `Engine` dumps produced for the `engines` relation field. -/
inductive AVal where
  | v : DVal → AVal
  | models : List Dict → AVal
deriving DecidableEq, Repr

/-- An `Aircraft` dump dictionary. -/
abbrev ADict := List (String × AVal)

/-- Read a scalar entry of an `Aircraft` dump dictionary. -/
def ADict.get (d : ADict) (k : String) : Option AVal :=
  List.lookup k d

/-- The scalar sub-dictionary of an `Aircraft` dump. -/
def ADict.scalars (d : ADict) : Dict :=
  d.filterMap (fun kv => match kv.2 with
    | AVal.v w => some (kv.1, w)
    | AVal.models _ => none)

/-- The `Aircraft` model of `models/aircraft.py`, restricted to the base
fields, a representative subset of its domain fields of each kind
(required string, required constrained number, optional constrained
numbers, validator-normalized optional string) and the `engines` nested
relation list. -/
structure Aircraft where
  id : Option Int
  created_at : Option Nat
  updated_at : Option Nat
  model : String
  manufacturer : String
  max_speed : Int
  passenger_capacity : Option Int
  num_engines : Option Int
  engine_type : Option String
  engines : List Engine
deriving DecidableEq, Repr

/-- `BaseModel.to_dict` at `Aircraft` with `exclude_none=False`: scalars
under their names, the `engines` relation as the list of nested dumps. -/
def Aircraft.to_dict (a : Aircraft) : ADict :=
  [("id", AVal.v (match a.id with | some i => DVal.intD i | none => DVal.noneD)),
   ("created_at", AVal.v (match a.created_at with
      | some t => DVal.timeD t | none => DVal.noneD)),
   ("updated_at", AVal.v (match a.updated_at with
      | some t => DVal.timeD t | none => DVal.noneD)),
   ("model", AVal.v (DVal.strD a.model)),
   ("manufacturer", AVal.v (DVal.strD a.manufacturer)),
   ("max_speed", AVal.v (DVal.intD a.max_speed)),
   ("passenger_capacity", AVal.v (match a.passenger_capacity with
      | some n => DVal.intD n | none => DVal.noneD)),
   ("num_engines", AVal.v (match a.num_engines with
      | some n => DVal.intD n | none => DVal.noneD)),
   ("engine_type", AVal.v (match a.engine_type with
      | some s => DVal.strD s | none => DVal.noneD)),
   ("engines", AVal.models (a.engines.map Engine.to_dict))]

/-- `BaseModel.from_dict` at `Aircraft`: reads each declared field by name
and runs pydantic validation — `max_speed` has `gt=0`,
`passenger_capacity` has `ge=0`, `num_engines` has `ge=1, le=8`,
`engine_type` runs `validate_engine_type` (lowercase then membership in
the valid list), and each entry of `engines` is validated as an `Engine`
(missing `engines` defaults to the empty list). -/
def Aircraft.from_dict (d : ADict) : Option Aircraft := do
  let s := d.scalars
  let id ← s.readOptInt "id"
  let created_at ← s.readOptTime "created_at"
  let updated_at ← s.readOptTime "updated_at"
  let model ← s.readStr "model"
  let manufacturer ← s.readStr "manufacturer"
  let max_speed ← s.readInt "max_speed"
  guard (0 < max_speed)
  let passenger_capacity ← s.readOptInt "passenger_capacity"
  guard ((match passenger_capacity with
    | some n => decide (0 ≤ n) | none => true) = true)
  let num_engines ← s.readOptInt "num_engines"
  guard ((match num_engines with
    | some n => decide (1 ≤ n) && decide (n ≤ 8) | none => true) = true)
  let engine_type ← s.readOptStr "engine_type"
  let engine_type ← match engine_type with
    | none => pure none
    | some t =>
        if validEngineTypes.contains (pyLower t) then pure (some (pyLower t))
        else none
  let engines ← match d.get "engines" with
    | none => pure []
    | some (AVal.models ds) => ds.mapM Engine.from_dict
    | some (AVal.v _) => none
  pure ⟨id, created_at, updated_at, model, manufacturer, max_speed,
        passenger_capacity, num_engines, engine_type, engines⟩

/-- The field constraints pydantic enforces on any constructed `Aircraft`
instance: numeric bounds, normalized `engine_type`, valid nested engines. -/
def Aircraft.validB (a : Aircraft) : Bool :=
  decide (0 < a.max_speed) &&
  (match a.passenger_capacity with | some n => decide (0 ≤ n) | none => true) &&
  (match a.num_engines with
    | some n => decide (1 ≤ n) && decide (n ≤ 8) | none => true) &&
  (match a.engine_type with
    | some s => validEngineTypes.contains s | none => true) &&
  a.engines.all Engine.validB

/-! ### Properties of the lookup-expression parser -/

/-- `String.mk` inverts `String.toList`. -/
lemma stringMk_toList (s : String) : String.mk s.toList = s := rfl

/-- `toList` distributes over string append. -/
lemma toList_append (a b : String) : (a ++ b).toList = a.toList ++ b.toList :=
  String.data_append a b

/-- A nonempty list is not a prefix of the empty list. -/
lemma isPrefixOf_nil_eq_false {sub : List Char} (h : sub ≠ []) :
    sub.isPrefixOf ([] : List Char) = false := by
  cases sub with
  | nil => exact absurd rfl h
  | cons a as => rfl

/-- An occurrence of a nonempty pattern starts strictly inside the text. -/
lemma occursAt_lt_length {s sub : List Char} {i : Nat} (hsub : sub ≠ [])
    (h : occursAt s sub i) : i < s.length := by
  unfold occursAt at h
  by_contra hle
  push_neg at hle
  rw [List.drop_eq_nil_of_le hle, isPrefixOf_nil_eq_false hsub] at h
  exact Bool.false_ne_true h

/-- `strContains` is the existence of an occurrence index. -/
lemma strContains_iff (s sub : String) :
    strContains s sub = true ↔
      ∃ i, i ≤ s.toList.length ∧ occursAt s.toList sub.toList i := by
  unfold strContains occursAt
  simp [List.any_eq_true, List.mem_range, Nat.lt_succ_iff]

/-- When the pattern does not occur, `rsplitLast` finds nothing. -/
lemma rsplitLast_none {s sub : String} (h : strContains s sub = false) :
    rsplitLast s sub = none := by
  unfold rsplitLast
  rw [h]
  rfl

/-- `rsplitLast` on a string of the form `field ++ t`, where the pattern
occurs at the start of `t` and nowhere later in `t`: the split point is
exactly the boundary, the left part is `field` and the right part is `t`
without the pattern. -/
lemma rsplitLast_append {field t sub : String} (hsub : sub.toList ≠ [])
    (h0 : sub.toList.isPrefixOf t.toList = true)
    (hj : ∀ j, 0 < j → j < t.toList.length →
      sub.toList.isPrefixOf (t.toList.drop j) = false) :
    rsplitLast (field ++ t) sub
      = some (field, String.mk (t.toList.drop sub.toList.length)) := by
  have hs : (field ++ t).toList = field.toList ++ t.toList := toList_append field t
  have hP : occursAt (field ++ t).toList sub.toList field.toList.length := by
    unfold occursAt
    rw [hs, List.drop_left]
    exact h0
  have hLle : field.toList.length ≤ (field ++ t).toList.length := by
    rw [hs, List.length_append]
    exact Nat.le_add_right _ _
  have hcontains : strContains (field ++ t) sub = true :=
    (strContains_iff _ _).2 ⟨field.toList.length, hLle, hP⟩
  have hle : Nat.findGreatest (occursAt (field ++ t).toList sub.toList)
      (field ++ t).toList.length ≤ field.toList.length := by
    by_contra hlt
    push_neg at hlt
    have hPi : occursAt (field ++ t).toList sub.toList
        (Nat.findGreatest (occursAt (field ++ t).toList sub.toList)
          (field ++ t).toList.length) :=
      Nat.findGreatest_spec hLle hP
    set i := Nat.findGreatest (occursAt (field ++ t).toList sub.toList)
      (field ++ t).toList.length with hidef
    have hdrop : (field ++ t).toList.drop i
        = t.toList.drop (i - field.toList.length) := by
      obtain ⟨j, hij⟩ : ∃ j, i = field.toList.length + j :=
        ⟨i - field.toList.length, by omega⟩
      rw [hij, hs, Nat.add_sub_cancel_left, ← List.drop_drop, List.drop_left]
    unfold occursAt at hPi
    rw [hdrop] at hPi
    rcases Nat.lt_or_ge (i - field.toList.length) t.toList.length with hjlen | hjlen
    · rw [hj (i - field.toList.length) (by omega) hjlen] at hPi
      exact Bool.false_ne_true hPi
    · rw [List.drop_eq_nil_of_le hjlen, isPrefixOf_nil_eq_false hsub] at hPi
      exact Bool.false_ne_true hPi
  have hge : field.toList.length ≤
      Nat.findGreatest (occursAt (field ++ t).toList sub.toList)
        (field ++ t).toList.length :=
    Nat.le_findGreatest hLle hP
  have hiL : Nat.findGreatest (occursAt (field ++ t).toList sub.toList)
      (field ++ t).toList.length = field.toList.length :=
    Nat.le_antisymm hle hge
  unfold rsplitLast
  rw [hcontains]
  simp only [if_true, hiL]
  congr 1
  refine Prod.ext ?_ ?_
  · show String.mk ((field ++ t).toList.take field.toList.length) = field
    rw [hs, List.take_left]
    rfl
  · show String.mk ((field ++ t).toList.drop
        (field.toList.length + sub.toList.length))
      = String.mk (t.toList.drop sub.toList.length)
    rw [hs, ← List.drop_drop, List.drop_left]

/-- Soundness of `rsplitLast`: the two parts reassemble to the original
string around one pattern occurrence, and the pattern does not occur in
the right part (the split really is at the LAST occurrence). -/
lemma rsplitLast_some {s sub f op : String} (hsub : sub.toList ≠ [])
    (h : rsplitLast s sub = some (f, op)) :
    s = f ++ sub ++ op ∧ strContains op sub = false := by
  unfold rsplitLast at h
  by_cases hc : strContains s sub = true
  case neg =>
    rw [if_neg hc] at h
    exact absurd h (Option.noConfusion)
  case pos =>
    rw [if_pos hc] at h
    simp only [Option.some.injEq, Prod.mk.injEq] at h
    obtain ⟨hf, hop⟩ := h
    obtain ⟨m, hmle, hm⟩ := (strContains_iff s sub).1 hc
    set i := Nat.findGreatest (occursAt s.toList sub.toList) s.toList.length
      with hidef
    have hPi : occursAt s.toList sub.toList i := Nat.findGreatest_spec hmle hm
    have hpre : sub.toList <+: s.toList.drop i :=
      List.isPrefixOf_iff_prefix.1 hPi
    obtain ⟨rest, hrest⟩ := hpre
    have hrest' : rest = s.toList.drop (i + sub.toList.length) := by
      have hdd := congrArg (List.drop sub.toList.length) hrest
      rw [List.drop_left, List.drop_drop] at hdd
      exact hdd
    have hopL : op.toList = s.toList.drop (i + sub.toList.length) := by
      rw [← hop]
      rfl
    constructor
    · have hdata : s.toList = f.toList ++ sub.toList ++ op.toList := by
        have hfL : f.toList = s.toList.take i := by
          rw [← hf]
          rfl
        rw [hfL, hopL, List.append_assoc, ← hrest', hrest,
          List.take_append_drop]
      exact congrArg String.mk hdata
    · by_contra hcon
      rw [Bool.not_eq_false] at hcon
      obtain ⟨j, hjle, hj⟩ := (strContains_iff op sub).1 hcon
      have hP2 : occursAt s.toList sub.toList (i + sub.toList.length + j) := by
        unfold occursAt at hj ⊢
        rw [← List.drop_drop, ← hopL]
        exact hj
      have hbound : i + sub.toList.length + j ≤ s.toList.length := by
        have := occursAt_lt_length hsub hP2
        omega
      have hle2 : i + sub.toList.length + j ≤ i :=
        Nat.le_findGreatest hbound hP2
      have hsubpos : 0 < sub.toList.length := List.length_pos.2 hsub
      omega

/-! ### Builder state lemmas -/

/-- `whereOne` only appends the parsed condition to `filters`. -/
lemma whereOne_eq (qb : QueryBuilder) (key : String) (v : Value) :
    qb.whereOne key v
      = { qb with filters := qb.filters ++ [parseCondition key v] } := by
  unfold QueryBuilder.whereOne parseCondition
  cases h : rsplitLast key "__" with
  | none => rfl
  | some p => rfl

/-- `where` appends one parsed condition per keyword argument, in order,
and changes nothing else in the builder. -/
lemma whereAll_eq (qb : QueryBuilder) (kwargs : List (String × Value)) :
    qb.whereAll kwargs
      = { qb with filters :=
            qb.filters ++ kwargs.map (fun kv => parseCondition kv.1 kv.2) } := by
  induction kwargs generalizing qb with
  | nil => simp [QueryBuilder.whereAll]
  | cons kv rest ih =>
      show (qb.whereOne kv.1 kv.2).whereAll rest = _
      rw [ih, whereOne_eq]
      simp [List.append_assoc]

/-- One builder operation preserves non-negative pagination. -/
lemma applyOp_pagNonneg {qb : QueryBuilder} {op : BuilderOp}
    (hqb : qb.pagNonneg) (hop : op.argNonneg) : (qb.applyOp op).pagNonneg := by
  cases op with
  | whereOp kwargs =>
      show (qb.whereAll kwargs).pagNonneg
      rw [whereAll_eq]
      exact hqb
  | withRelationsOp rels => exact hqb
  | orderByOp fields => exact hqb
  | limitOp n =>
      refine ⟨fun m hm => ?_, hqb.2⟩
      have hop' : 0 ≤ n := hop
      simp only [QueryBuilder.applyOp, QueryBuilder.limit,
        Option.some.injEq] at hm
      omega
  | offsetOp n =>
      refine ⟨hqb.1, fun m hm => ?_⟩
      have hop' : 0 ≤ n := hop
      simp only [QueryBuilder.applyOp, QueryBuilder.offset,
        Option.some.injEq] at hm
      omega
  | firstOp =>
      refine ⟨fun m hm => ?_, hqb.2⟩
      simp only [QueryBuilder.applyOp, Option.some.injEq] at hm
      omega

/-- A sequence of builder operations with non-negative pagination
arguments preserves non-negative pagination. -/
lemma applyOps_pagNonneg {qb : QueryBuilder} {ops : List BuilderOp}
    (hqb : qb.pagNonneg) (h : ∀ op ∈ ops, op.argNonneg) :
    (qb.applyOps ops).pagNonneg := by
  induction ops generalizing qb with
  | nil => exact hqb
  | cons op rest ih =>
      exact ih (applyOp_pagNonneg hqb (h op (List.mem_cons_self op rest)))
        (fun o ho => h o (List.mem_cons_of_mem op ho))

/-! ### Claim theorems -/

/-- C5: `first()` executes the backend query with limit exactly 1,
regardless of any previously set limit, and returns the head of the result
sequence — absent exactly when the result sequence is empty. -/
theorem C5_first_limit_one {α : Type} (qb : QueryBuilder)
    (backend : ExecIntent → List α) :
    qb.first backend
      = ((backend { qb.execIntent with limit := some 1 }).head?, qb.limit 1) ∧
    ((qb.first backend).1 = none ↔
      backend { qb.execIntent with limit := some 1 } = []) := by
  exact ⟨rfl, List.head?_eq_none_iff⟩

/-- C6: `count()` depends only on the model class and the accumulated
filters: two builders agreeing on those issue identical count-query
intent, whatever their relations, order-by, limit and offset. -/
theorem C6_count_ignores (qb₁ qb₂ : QueryBuilder)
    (h₁ : qb₁.model_class = qb₂.model_class) (h₂ : qb₁.filters = qb₂.filters) :
    qb₁.countIntent = qb₂.countIntent ∧
    ∀ backend : CountIntent → Int, qb₁.count backend = qb₂.count backend := by
  have hint : qb₁.countIntent = qb₂.countIntent := by
    unfold QueryBuilder.countIntent
    rw [h₁, h₂]
  exact ⟨hint, fun backend => by unfold QueryBuilder.count; rw [hint]⟩

/-- Witness for C6: two builders differing in relations, order-by, limit
and offset (but not filters) are distinct yet have equal count intent. -/
theorem C6_count_ignores_witness :
    (((((QueryBuilder.init "Aircraft").with_relations ["engines"]).order_by
        ["-max_speed"]).limit 10).offset 5 ≠ QueryBuilder.init "Aircraft") ∧
    ((((((QueryBuilder.init "Aircraft").with_relations ["engines"]).order_by
        ["-max_speed"]).limit 10).offset 5).countIntent
      = (QueryBuilder.init "Aircraft").countIntent) := by
  exact ⟨by decide, (C6_count_ignores _ _ rfl rfl).1⟩

/-- C10: `first()` permanently overwrites the builder's stored limit with
1; a later `all()` on the same builder executes with limit 1 and the
original filters, relations, order-by and offset, which are unchanged. -/
theorem C10_first_mutates {α : Type} (qb : QueryBuilder)
    (backend : ExecIntent → List α) :
    ((qb.first backend).2).limit_value = some 1 ∧
    (∀ (β : Type) (backend2 : ExecIntent → List β),
        ((qb.first backend).2).all backend2
          = backend2 ⟨qb.model_class, qb.filters, qb.relations,
              qb.order_by_fields, some 1, qb.offset_value⟩) ∧
    ((qb.first backend).2).filters = qb.filters ∧
    ((qb.first backend).2).relations = qb.relations ∧
    ((qb.first backend).2).order_by_fields = qb.order_by_fields ∧
    ((qb.first backend).2).offset_value = qb.offset_value :=
  ⟨rfl, fun _ _ => rfl, rfl, rfl, rfl, rfl⟩

/-- C4: `save` on a record with absent identity stamps both timestamps to
the current time and issues exactly one `insert`; with a present identity
it stamps only `updated_at`, issues exactly one `update`, and leaves
`created_at` (and the identity) unchanged. -/
theorem C4_save_timestamps (r : LifecycleRecord) (now : Nat) :
    (r.id = none →
      r.save now
        = ({ r with created_at := some now, updated_at := some now },
           [BackendCall.insert
              { r with created_at := some now, updated_at := some now }])) ∧
    (∀ i, r.id = some i →
      r.save now
        = ({ r with updated_at := some now },
           [BackendCall.update { r with updated_at := some now }]) ∧
      (r.save now).1.created_at = r.created_at ∧
      (r.save now).1.id = r.id) := by
  constructor
  · intro h
    unfold LifecycleRecord.save
    rw [h]
  · intro i h
    unfold LifecycleRecord.save
    rw [h]
    exact ⟨rfl, rfl, rfl⟩

/-- Witness for C4 at concrete records: a fresh record is inserted with
both stamps set; a persisted record is updated with `created_at` kept. -/
theorem C4_save_timestamps_witness :
    ((⟨"Aircraft", none, none, none, []⟩ : LifecycleRecord).save 5
      = (⟨"Aircraft", none, some 5, some 5, []⟩,
         [BackendCall.insert ⟨"Aircraft", none, some 5, some 5, []⟩])) ∧
    ((⟨"Aircraft", some 7, some 3, some 3, []⟩ : LifecycleRecord).save 9
      = (⟨"Aircraft", some 7, some 3, some 9, []⟩,
         [BackendCall.update ⟨"Aircraft", some 7, some 3, some 9, []⟩]) ∧
     ((⟨"Aircraft", some 7, some 3, some 3, []⟩ : LifecycleRecord).save 9).1.created_at
        = some 3 ∧
     ((⟨"Aircraft", some 7, some 3, some 3, []⟩ : LifecycleRecord).save 9).1.id
        = some 7) :=
  ⟨(C4_save_timestamps ⟨"Aircraft", none, none, none, []⟩ 5).1 rfl,
   (C4_save_timestamps ⟨"Aircraft", some 7, some 3, some 3, []⟩ 9).2 7 rfl⟩

/-- C8: `delete` on a record with absent identity issues zero backend
calls; with a present identity it issues exactly one `delete` with the
record's class and identity. -/
theorem C8_delete_frame (r : LifecycleRecord) :
    (r.id = none → r.delete = []) ∧
    (∀ i, r.id = some i →
      r.delete = [BackendCall.deleteCall r.model_class i]) := by
  constructor
  · intro h
    unfold LifecycleRecord.delete
    rw [h]
  · intro i h
    unfold LifecycleRecord.delete
    rw [h]

/-- Witness for C8 at concrete records. -/
theorem C8_delete_frame_witness :
    (⟨"Aircraft", none, none, none, []⟩ : LifecycleRecord).delete = [] ∧
    (⟨"Engine", some 4, none, none, []⟩ : LifecycleRecord).delete
      = [BackendCall.deleteCall "Engine" 4] :=
  ⟨(C8_delete_frame ⟨"Aircraft", none, none, none, []⟩).1 rfl,
   (C8_delete_frame ⟨"Engine", some 4, none, none, []⟩).2 4 rfl⟩

/-- `rsplitLast` on `field ++ "__in"` always yields `(field, "in")`. -/
lemma rsplit_suffix_in (field : String) :
    rsplitLast (field ++ "__in") "__" = some (field, "in") :=
  @rsplitLast_append field "__in" "__" (by decide) (by decide)
    (fun j h1 h2 => by
      have h2' : j < 4 := h2
      interval_cases j <;> decide)

/-- `rsplitLast` on `field ++ "__not_in"` always yields `(field, "not_in")`. -/
lemma rsplit_suffix_not_in (field : String) :
    rsplitLast (field ++ "__not_in") "__" = some (field, "not_in") :=
  @rsplitLast_append field "__not_in" "__" (by decide) (by decide)
    (fun j h1 h2 => by
      have h2' : j < 8 := h2
      interval_cases j <;> decide)

/-- `rsplitLast` on `field ++ "__gt"` always yields `(field, "gt")`. -/
lemma rsplit_suffix_gt (field : String) :
    rsplitLast (field ++ "__gt") "__" = some (field, "gt") :=
  @rsplitLast_append field "__gt" "__" (by decide) (by decide)
    (fun j h1 h2 => by
      have h2' : j < 4 := h2
      interval_cases j <;> decide)

/-- Counterexample to C1: the key `x__foo` has an unrecognized final
segment, yet `where` appends `{x, foo, ...}` — the operator is taken
verbatim and lies outside the closed vocabulary, instead of the whole key
becoming the field with operator `eq`. -/
theorem C1_counterexample :
    ((QueryBuilder.init "Aircraft").whereOne "x__foo"
        (Value.prim (Prim.intP 1))).filters
      = [⟨"x", "foo", Value.prim (Prim.intP 1)⟩] ∧
    "foo" ∉ FilterOperator.values ∧
    (⟨"x", "foo", Value.prim (Prim.intP 1)⟩ : FilterCondition)
      ≠ ⟨"x__foo", "eq", Value.prim (Prim.intP 1)⟩ :=
  ⟨by decide, by decide, by decide⟩

/-- C1 (amended): `where` splits each keyword on the LAST occurrence of
the delimiter; when the delimiter occurs, the segment after it becomes the
operator verbatim with no validation against the operator vocabulary, and
only keys without the delimiter default to operator `eq`. -/
theorem C1_amended (qb : QueryBuilder) (key : String) (v : Value)
    (f op : String) :
    (rsplitLast key "__" = some (f, op) →
      (qb.whereOne key v).filters = qb.filters ++ [⟨f, op, v⟩] ∧
      key = f ++ "__" ++ op ∧ strContains op "__" = false) ∧
    (rsplitLast key "__" = none →
      (qb.whereOne key v).filters = qb.filters ++ [⟨key, "eq", v⟩]) := by
  constructor
  · intro h
    refine ⟨?_, (rsplitLast_some (by decide) h).1,
      (rsplitLast_some (by decide) h).2⟩
    unfold QueryBuilder.whereOne
    rw [h]
  · intro h
    unfold QueryBuilder.whereOne
    rw [h]

/-- Witness for C1 (amended) at the key `x__foo`. -/
theorem C1_amended_witness :
    ((QueryBuilder.init "Aircraft").whereOne "x__foo"
        (Value.prim (Prim.boolP true))).filters
      = [⟨"x", "foo", Value.prim (Prim.boolP true)⟩] ∧
    "x__foo" = "x" ++ "__" ++ "foo" ∧ strContains "foo" "__" = false :=
  (C1_amended (QueryBuilder.init "Aircraft") "x__foo"
    (Value.prim (Prim.boolP true)) "x" "foo").1 (by decide)

/-- Counterexample to C2: `where(tag__in=5)` with the non-sequence value
`5` appends the condition unchanged — no `ValidationError` exists in the
builder and nothing rejects the malformed value shape. -/
theorem C2_counterexample :
    ((QueryBuilder.init "Aircraft").whereOne "tag__in"
        (Value.prim (Prim.intP 5))).filters
      = [⟨"tag", "in", Value.prim (Prim.intP 5)⟩] ∧
    (Value.prim (Prim.intP 5)).isSequence = false :=
  ⟨by decide, rfl⟩

/-- C2 (amended): `where` performs no value-shape validation: an `in` or
`not_in` keyword with a non-sequence value silently appends the condition
with that value unchanged; no error is raised. -/
theorem C2_amended (qb : QueryBuilder) (field : String) (v : Value)
    (hv : v.isSequence = false) :
    (qb.whereOne (field ++ "__in") v).filters
      = qb.filters ++ [⟨field, "in", v⟩] ∧
    (qb.whereOne (field ++ "__not_in") v).filters
      = qb.filters ++ [⟨field, "not_in", v⟩] := by
  constructor
  · unfold QueryBuilder.whereOne
    rw [rsplit_suffix_in field]
  · unfold QueryBuilder.whereOne
    rw [rsplit_suffix_not_in field]

/-- Witness for C2 (amended) with a non-sequence string value. -/
theorem C2_amended_witness :
    ((QueryBuilder.init "Aircraft").whereOne ("tag" ++ "__in")
        (Value.prim (Prim.strP "a"))).filters
      = [⟨"tag", "in", Value.prim (Prim.strP "a")⟩] ∧
    ((QueryBuilder.init "Aircraft").whereOne ("tag" ++ "__not_in")
        (Value.prim (Prim.strP "a"))).filters
      = [⟨"tag", "not_in", Value.prim (Prim.strP "a")⟩] :=
  C2_amended (QueryBuilder.init "Aircraft") "tag" (Value.prim (Prim.strP "a"))
    rfl

/-- Counterexample to C9: for the field name `a__b` (which contains the
delimiter), `where(a__b=5)` appends `{a, b, 5}`, not `{a__b, eq, 5}`. -/
theorem C9_counterexample :
    ((QueryBuilder.init "Aircraft").whereOne "a__b"
        (Value.prim (Prim.intP 5))).filters
      = [⟨"a", "b", Value.prim (Prim.intP 5)⟩] ∧
    ((QueryBuilder.init "Aircraft").whereOne "a__b"
        (Value.prim (Prim.intP 5))).filters
      ≠ [⟨"a__b", "eq", Value.prim (Prim.intP 5)⟩] :=
  ⟨by decide, by decide⟩

/-- C9 (amended): for every field name NOT containing the delimiter,
`where(field=value)` appends exactly `{field, eq, value}`; for EVERY field
name (delimiter-containing or not), `where(field__gt=value)` appends
exactly `{field, gt, value}`; and each keyword argument appends exactly
one condition, in order. -/
theorem C9_amended (qb : QueryBuilder) (field : String) (v : Value) :
    (strContains field "__" = false →
      (qb.whereOne field v).filters = qb.filters ++ [⟨field, "eq", v⟩]) ∧
    (qb.whereOne (field ++ "__gt") v).filters
      = qb.filters ++ [⟨field, "gt", v⟩] ∧
    ∀ kwargs : List (String × Value),
      (qb.whereAll kwargs).filters
        = qb.filters ++ kwargs.map (fun kv => parseCondition kv.1 kv.2) := by
  refine ⟨?_, ?_, ?_⟩
  · intro h
    unfold QueryBuilder.whereOne
    rw [rsplitLast_none h]
  · unfold QueryBuilder.whereOne
    rw [rsplit_suffix_gt field]
  · intro kwargs
    rw [whereAll_eq]

/-- Witness for C9 (amended): the `eq` clause at a delimiter-free field
of the spec scenario, and the `gt` clause at a delimiter-containing
field name. -/
theorem C9_amended_witness :
    ((QueryBuilder.init "Aircraft").whereOne "manufacturer"
        (Value.prim (Prim.strP "Boeing"))).filters
      = [⟨"manufacturer", "eq", Value.prim (Prim.strP "Boeing")⟩] ∧
    ((QueryBuilder.init "Aircraft").whereOne ("a__b" ++ "__gt")
        (Value.prim (Prim.intP 500))).filters
      = [⟨"a__b", "gt", Value.prim (Prim.intP 500)⟩] :=
  ⟨(C9_amended (QueryBuilder.init "Aircraft") "manufacturer"
      (Value.prim (Prim.strP "Boeing"))).1 (by decide),
   (C9_amended (QueryBuilder.init "Aircraft") "a__b"
      (Value.prim (Prim.intP 500))).2.1⟩

/-- Counterexample to C3: `limit(-1)` and `offset(-2)` are stored as
given — the accumulated limit and offset can be negative. -/
theorem C3_counterexample :
    ((QueryBuilder.init "Aircraft").applyOps
        [BuilderOp.limitOp (-1), BuilderOp.offsetOp (-2)]).limit_value
      = some (-1) ∧
    ((QueryBuilder.init "Aircraft").applyOps
        [BuilderOp.limitOp (-1), BuilderOp.offsetOp (-2)]).offset_value
      = some (-2) ∧
    ¬((0 : Int) ≤ -1) :=
  ⟨rfl, rfl, by decide⟩

/-- C3 (amended): `limit` and `offset` store the argument without
validation; the accumulated limit and offset are each unset or
non-negative provided every `limit`/`offset` call in the operation
sequence passed a non-negative argument. -/
theorem C3_amended (model_class : String) (ops : List BuilderOp)
    (h : ∀ op ∈ ops, op.argNonneg) :
    ((QueryBuilder.init model_class).applyOps ops).pagNonneg :=
  applyOps_pagNonneg
    ⟨fun _ hn => Option.noConfusion hn, fun _ hn => Option.noConfusion hn⟩ h

/-- Witness for C3 (amended) on a concrete operation sequence. -/
theorem C3_amended_witness :
    ((QueryBuilder.init "Aircraft").applyOps
        [BuilderOp.limitOp 10, BuilderOp.offsetOp 0,
         BuilderOp.firstOp]).pagNonneg :=
  C3_amended "Aircraft"
    [BuilderOp.limitOp 10, BuilderOp.offsetOp 0, BuilderOp.firstOp]
    (by decide)

/-! ### Serialization round-trip -/

/-- A constructed `Engine` survives `to_dict`/`from_dict` unchanged. -/
lemma engine_roundtrip {e : Engine} (h : e.validB = true) :
    Engine.from_dict (Engine.to_dict e) = some e := by
  obtain ⟨id, ca, ua, model, manufacturer, thrust, rpm⟩ := e
  simp only [Engine.validB, Bool.and_eq_true, decide_eq_true_eq] at h
  obtain ⟨hthrust, hrpm⟩ := h
  unfold Engine.to_dict Engine.from_dict
  cases id <;> cases ca <;> cases ua <;> cases rpm <;>
    simp_all [Dict.readOptInt, Dict.readOptTime, Dict.readStr, Dict.readInt,
      Dict.get, List.lookup, guard, pure]

/-- A list of constructed engines survives elementwise
`to_dict`/`from_dict` unchanged. -/
lemma engines_roundtrip {l : List Engine} (h : l.all Engine.validB = true) :
    (l.map Engine.to_dict).mapM Engine.from_dict = some l := by
  induction l with
  | nil => rfl
  | cons e rest ih =>
      rw [List.all_cons, Bool.and_eq_true] at h
      rw [List.map_cons, List.mapM_cons, engine_roundtrip h.1, ih h.2]
      rfl

/-- Every allowed engine type is already lowercase. -/
lemma pyLower_mem_valid {s : String} (h : validEngineTypes.contains s = true) :
    pyLower s = s := by
  have hmem : s ∈ validEngineTypes := by simpa using h
  fin_cases hmem <;> decide

set_option maxHeartbeats 3200000 in
/-- C7: rehydrating a record from its own serialized mapping is the
identity — `from_dict(to_dict(record))` succeeds and yields a record whose
every field equals the original's, for any record satisfying the model's
own field constraints (which every constructed record does). -/
theorem C7_from_to_dict (a : Aircraft) (h : a.validB = true) :
    Aircraft.from_dict (Aircraft.to_dict a) = some a := by
  obtain ⟨id, ca, ua, model, manufacturer, ms, pc, nEng, et, engines⟩ := a
  simp only [Aircraft.validB, Bool.and_eq_true, decide_eq_true_eq] at h
  obtain ⟨⟨⟨⟨hms, hpc⟩, hne⟩, het⟩, hengines⟩ := h
  have heng := engines_roundtrip hengines
  unfold Aircraft.to_dict Aircraft.from_dict
  cases id <;> cases ca <;> cases ua <;> cases pc <;> cases nEng <;>
    rcases et with _ | s <;>
      simp_all [Dict.readOptInt, Dict.readOptTime, Dict.readStr,
        Dict.readInt, Dict.readOptStr, Dict.get, ADict.scalars, ADict.get,
        List.lookup, guard, pure, pyLower_mem_valid]

/-- Witness for C7 at a concrete aircraft with one nested engine. -/
theorem C7_from_to_dict_witness :
    Aircraft.from_dict
        (Aircraft.to_dict
          ⟨some 1, some 2, some 3, "737-800", "Boeing", 530, some 180,
           some 2, some "jet",
           [⟨some 4, none, none, "CFM56-7B", "CFM", 27300, some 5000⟩]⟩)
      = some ⟨some 1, some 2, some 3, "737-800", "Boeing", 530, some 180,
              some 2, some "jet",
              [⟨some 4, none, none, "CFM56-7B", "CFM", 27300, some 5000⟩]⟩ :=
  C7_from_to_dict
    ⟨some 1, some 2, some 3, "737-800", "Boeing", 530, some 180, some 2,
     some "jet", [⟨some 4, none, none, "CFM56-7B", "CFM", 27300, some 5000⟩]⟩
    (by decide)
